import Mathlib

/-!
Shallow embedding of the node lifecycle state machine of
`src/agent/onefuzz-agent/src/scheduler.rs` (the typestate `Scheduler` /
`State<C>` machine and its transition functions), together with the parts of
the work model and the worker collaborator that the scheduler consumes.

Conventions of the embedding:

* UUIDs (`TaskId`, `JobId`, machine ids) are modelled as `Nat`.
* `anyhow::Error` is modelled as a `String`; `anyhow::Result<T>` becomes
  `Except Error T`.
* External collaborators that live outside `scheduler.rs` (the setup runner,
  the per-worker `update` step, the two-phase `stop`/`kill` cancellation of a
  running worker, and the directory computations of `work.rs`) are passed in
  as explicit function arguments, so the transition functions stay pure while
  keeping exactly the control flow of the source.
* The mutable `events: &mut Vec<WorkerEvent>` buffer and the
  `&mut dyn IWorkerRunner` collaborator threaded through `State::<Busy>::update`
  are modelled as a single explicit state value of an arbitrary type `σ`,
  threaded sequentially through the per-slot worker updates in slot order.
* The `.unwrap()` calls inside `State::<Busy>::update` and
  `State::<Busy>::all_workers_done` can panic; a panic is modelled as the
  `none` value of an outer `Option` layer on the result.
-/

namespace OneFuzz

/-- Task identifiers (`TaskId`, a UUID in the source) are modelled as `Nat`. -/
abbrev TaskId := Nat

/-- Job identifiers (`JobId`, a UUID in the source) are modelled as `Nat`. -/
abbrev JobId := Nat

/-- Machine identities (`uuid::Uuid`) are modelled as `Nat`. -/
abbrev Uuid := Nat

/-- Filesystem paths (`PathBuf`) are modelled as strings. -/
abbrev Path := String

/-- Errors (`anyhow::Error`) are modelled as their message string. -/
abbrev Error := String

/-- Models the debug formatting `format!` applied to an `anyhow::Error` in
`State::<SettingUp>::finish`; since an error is already modelled as its
message, formatting is the identity on it. -/
def formatErr (err : Error) : String := err

/-- Modelled from the spec: a `WorkUnit` (one fuzzing task: task id, job id,
task-specific config); `work.rs` is not under `src/`. -/
structure WorkUnit where
  task_id : TaskId
  job_id : JobId
  config : String
deriving DecidableEq

/-- Modelled from the spec: a `WorkSet` (ordered work units, a reboot flag,
setup directories); `work.rs` is not under `src/`. The setup-directory
computations `setup_dir()` / `extra_setup_dir()` are fallible and are passed
to `State::<Ready>::run` as explicit function arguments. -/
structure WorkSet where
  reboot : Bool
  setup_url : String
  extra_setup_url : Option String
  work_units : List WorkUnit
deriving DecidableEq

/-- Exit status of a setup script process (`onefuzz::process::ExitStatus`),
carrying at least the success flag the scheduler inspects. -/
structure ExitStatus where
  success : Bool
deriving DecidableEq

/-- Captured process output of a setup script (`onefuzz::process::Output`). -/
structure Output where
  exit_status : ExitStatus
  stdout : String
  stderr : String
deriving DecidableEq

/-- Modelled from the spec: the state carried by a `Worker::Running` variant
(`worker.rs` is not under `src/`): the working directory, the shared setup
directories, and the owning work unit exposed by `state.work()`. -/
structure WorkerRunningState where
  work_dir : Path
  setup_dir : Path
  extra_setup_dir : Path
  work : WorkUnit
deriving DecidableEq

/-- Modelled from the spec: the state carried by a `Worker::Done` variant
(`worker.rs` is not under `src/`); it retains the owning work unit. -/
structure WorkerDoneState where
  work : WorkUnit
deriving DecidableEq

/-- Modelled from the spec: a `Worker` is a per-work-unit process supervisor
with variant `Running` or `Done` (`worker.rs` is not under `src/`). -/
inductive Worker
| Running (state : WorkerRunningState)
| Done (state : WorkerDoneState)
deriving DecidableEq

/-- Modelled from the spec: `Worker::new(work_dir, setup_dir, extra_setup_dir,
work)` constructs the supervisor for one work unit, initially running. -/
def Worker.new (work_dir setup_dir extra_setup_dir : Path) (work : WorkUnit) : Worker :=
  Worker.Running { work_dir, setup_dir, extra_setup_dir, work }

/-- Modelled from the spec: `Worker::is_done` reports whether the worker has
reached its `Done` variant. -/
def Worker.is_done : Worker → Bool
  | Worker.Running _ => false
  | Worker.Done _ => true

/-- A `RebootContext` persists a work set across a machine reboot
(`reboot.rs` is not under `src/`; the scheduler only reads `work_set`). -/
structure RebootContext where
  work_set : WorkSet
deriving DecidableEq

/-- Constructor `RebootContext::new` used by `State::<PendingReboot>::reboot_context`. -/
def RebootContext.new (work_set : WorkSet) : RebootContext :=
  { work_set }

/-- Terminal reason, `DoneCause` in the source. -/
inductive DoneCause
| SetupError (error : String) (script_output : Option Output)
| Stopped
| WorkersDone
deriving DecidableEq

/-- Context data of the `Free` lifecycle stage (empty struct in the source). -/
structure Free where
deriving DecidableEq

/-- Context data of the `SettingUp` lifecycle stage. -/
structure SettingUp where
  work_set : WorkSet
deriving DecidableEq

/-- Context data of the `PendingReboot` lifecycle stage. -/
structure PendingReboot where
  work_set : WorkSet
deriving DecidableEq

/-- Context data of the `Ready` lifecycle stage. -/
structure Ready where
  work_set : WorkSet
deriving DecidableEq

/-- Context data of the `Busy` lifecycle stage: one optional worker slot per
work unit (`workers: Vec<Option<Worker>>`). -/
structure Busy where
  workers : List (Option Worker)
deriving DecidableEq

/-- Context data of the `Done` lifecycle stage. -/
structure Done where
  cause : DoneCause
deriving DecidableEq

/-- The typestate wrapper `State<C: Context>`; the Rust `Context` marker trait
is implemented by exactly the six context structs above, so here `C` is simply
a type parameter instantiated only at those six types. -/
structure State (C : Type) where
  ctx : C
deriving DecidableEq

/-- The `Scheduler` enum: the closed set of lifecycle variants. -/
inductive Scheduler
| Free (state : State Free)
| SettingUp (state : State SettingUp)
| PendingReboot (state : State PendingReboot)
| Ready (state : State Ready)
| Busy (state : State Busy)
| Done (state : State Done)
deriving DecidableEq

/-- Coarse externally-reported node status (`coordinator.rs` `NodeState`). -/
inductive NodeState
| Free
| SettingUp
| Rebooting
| Ready
| Busy
| Done
deriving DecidableEq

/-- The `From<&Scheduler> for NodeState` projection. -/
def Scheduler.node_state : Scheduler → NodeState
  | Scheduler.Free _ => NodeState.Free
  | Scheduler.SettingUp _ => NodeState.SettingUp
  | Scheduler.PendingReboot _ => NodeState.Rebooting
  | Scheduler.Ready _ => NodeState.Ready
  | Scheduler.Busy _ => NodeState.Busy
  | Scheduler.Done _ => NodeState.Done

/-- Payload of the `AddSshKey` command (`coordinator.rs` `SshKeyInfo`). -/
structure SshKeyInfo where
  public_key : String
deriving DecidableEq

/-- Payload of the `StopTask` command (`coordinator.rs` `StopTask`). -/
structure StopTask where
  task_id : TaskId
deriving DecidableEq

/-- Coordinator instruction, `NodeCommand` in the source. -/
inductive NodeCommand
| AddSshKey (ssh_key_info : SshKeyInfo)
| StopTask (stop_task : StopTask)
| Stop
| StopIfFree
deriving DecidableEq

/-- Modelled from the spec: `add_ssh_key` (`commands.rs`, not under `src/`)
installs the provided key on a managed node. The spec assigns the command
side effect no failure mode of its own ("command handling itself does not
introduce new error kinds beyond those of the delegated stop"), so the call
always succeeds. -/
def add_ssh_key (_ssh_key_info : SshKeyInfo) : Except Error Unit :=
  Except.ok ()

/-- `Scheduler::new`: with a persisted reboot context, start directly in
`Ready` holding that context's work set; otherwise start in `Free`. -/
def Scheduler.new (ctx : Option RebootContext) : Scheduler :=
  match ctx with
  | some ctx => Scheduler.Ready { ctx := { work_set := ctx.work_set } }
  | none => Scheduler.Free { ctx := {} }

/-- `State::<Free>::schedule`: accept a work set and move to `SettingUp`. -/
def State.schedule (_self : State Free) (work_set : WorkSet) : State SettingUp :=
  { ctx := { work_set } }

/-- Result of `State::<SettingUp>::finish`, the `SetupDone` enum. -/
inductive SetupDone
| Ready (state : State Ready)
| PendingReboot (state : State PendingReboot)
| Done (state : State Done)
deriving DecidableEq

/-- The fall-through tail of `State::<SettingUp>::finish`: after a successful
(or absent) setup script, move to `PendingReboot` when the work set's reboot
flag is set, else to `Ready`, holding the same work set either way. -/
def finishProceed (work_set : WorkSet) : SetupDone :=
  if work_set.reboot then
    SetupDone.PendingReboot { ctx := { work_set } }
  else
    SetupDone.Ready { ctx := { work_set } }

/-- `State::<SettingUp>::finish`: invoke the setup runner (`ISetupRunner::run`,
modelled as the function argument `runner` from work sets to
`Result<Option<Output>>`) on the held work set and dispatch on its outcome
exactly as the source does. The source function's own `Result` is always `Ok`
(every arm returns `Ok`), which the embedding reproduces. -/
def State.finish (self : State SettingUp)
    (runner : WorkSet → Except Error (Option Output)) :
    Except Error SetupDone :=
  let work_set := self.ctx.work_set
  match runner work_set with
  | Except.ok (some output) =>
    if !output.exit_status.success then
      let error := "error running target setup script"
      let cause := DoneCause.SetupError error (some output)
      Except.ok (SetupDone.Done { ctx := { cause } })
    else
      Except.ok (finishProceed work_set)
  | Except.ok none => Except.ok (finishProceed work_set)
  | Except.error err =>
    let error := formatErr err
    let cause := DoneCause.SetupError error none
    Except.ok (SetupDone.Done { ctx := { cause } })

/-- Accessor `State::<SettingUp>::work_set`. -/
def State.work_set (self : State SettingUp) : WorkSet :=
  self.ctx.work_set

/-- `State::<PendingReboot>::reboot_context`: expose the held work set for
external persistence. -/
def State.reboot_context (self : State PendingReboot) : RebootContext :=
  RebootContext.new self.ctx.work_set

/-- The worker-construction loop of `State::<Ready>::run`: for each work unit
in order, compute its working directory (fallible) and push one freshly
constructed worker; the first failure aborts the whole loop. -/
def runWorkers (machine_id : Uuid) (setup_dir extra_setup_dir : Path)
    (working_dir : WorkUnit → Uuid → Except Error Path) :
    List WorkUnit → Except Error (List (Option Worker))
  | [] => Except.ok []
  | work :: rest =>
    match working_dir work machine_id with
    | Except.error e => Except.error e
    | Except.ok work_dir =>
      match runWorkers machine_id setup_dir extra_setup_dir working_dir rest with
      | Except.error e => Except.error e
      | Except.ok workers =>
        Except.ok (some (Worker.new work_dir setup_dir extra_setup_dir work) :: workers)

/-- `State::<Ready>::run`: compute the shared setup directories, then one
worker per work unit in original order; any failure propagates and no `Busy`
state is produced. The fallible directory computations (`WorkSet::setup_dir`,
`WorkSet::extra_setup_dir`, `WorkUnit::working_dir`, all in `work.rs`) are
passed as explicit function arguments. -/
def State.run (self : State Ready) (machine_id : Uuid)
    (setup_dir : WorkSet → Except Error Path)
    (extra_setup_dir : WorkSet → Except Error Path)
    (working_dir : WorkUnit → Uuid → Except Error Path) :
    Except Error (State Busy) :=
  match setup_dir self.ctx.work_set with
  | Except.error e => Except.error e
  | Except.ok sd =>
    match extra_setup_dir self.ctx.work_set with
    | Except.error e => Except.error e
    | Except.ok esd =>
      match runWorkers machine_id sd esd working_dir self.ctx.work_set.work_units with
      | Except.error e => Except.error e
      | Except.ok workers => Except.ok { ctx := { workers } }

/-- The slot loop of `State::<Busy>::update`: sequentially, in slot order,
take each slot's worker (`take().unwrap()`, panicking — outer `none` — on an
empty slot), advance it with the per-worker update step `wupd` (threading the
event/runner state `s`), and place the result back into the same slot; a
worker-update error aborts the loop. -/
def updateWorkers {σ : Type} (wupd : Worker → σ → Except Error (Worker × σ)) :
    List (Option Worker) → σ → Option (Except Error (List (Option Worker) × σ))
  | [], s => some (Except.ok ([], s))
  | none :: _, _ => none
  | some worker :: rest, s =>
    match wupd worker s with
    | Except.error e => some (Except.error e)
    | Except.ok (worker2, s2) =>
      match updateWorkers wupd rest s2 with
      | none => none
      | some (Except.error e) => some (Except.error e)
      | some (Except.ok (workers, s3)) =>
        some (Except.ok (some worker2 :: workers, s3))

/-- `State::<Busy>::all_workers_done`: `iter().all(...)` with an unwrap of
each slot; `all` short-circuits on the first not-done worker, and panics
(outer `none`) when it unwraps an empty slot before that. -/
def allWorkersDone : List (Option Worker) → Option Bool
  | [] => some true
  | none :: _ => none
  | some worker :: rest =>
    if worker.is_done then allWorkersDone rest else some false

/-- Result of `State::<Busy>::update`, the `Updated` enum. -/
inductive Updated
| Busy (state : State Busy)
| Done (state : State Done)
deriving DecidableEq

/-- `State::<Busy>::update`: advance every slot sequentially in order, then
transition to `Done(WorkersDone)` when every slot reports done, else stay
`Busy` with the updated slots. The outer `Option` is `none` exactly when one
of the source's `unwrap` calls panics. -/
def State.update {σ : Type} (self : State Busy)
    (wupd : Worker → σ → Except Error (Worker × σ)) (s : σ) :
    Option (Except Error (Updated × σ)) :=
  match updateWorkers wupd self.ctx.workers s with
  | none => none
  | some (Except.error e) => some (Except.error e)
  | some (Except.ok (workers, s2)) =>
    match allWorkersDone workers with
    | none => none
    | some true =>
      some (Except.ok (Updated.Done { ctx := { cause := DoneCause.WorkersDone } }, s2))
    | some false =>
      some (Except.ok (Updated.Busy { ctx := { workers } }, s2))

/-- One slot of the `try_join_all` closure in `State::<Busy>::stop`: take the
slot's worker; when it is running and owned by the given task, run the
two-phase cancellation (`state.stop().kill()`, modelled by the function
argument `kill`) and yield the resulting done worker; in every other case the
closure's `new_worker` stays `None`. -/
def stopSlot (kill : WorkerRunningState → Except Error WorkerDoneState)
    (task_id : TaskId) : Option Worker → Except Error (Option Worker)
  | none => Except.ok none
  | some worker =>
    match worker with
    | Worker.Running state =>
      if state.work.task_id = task_id then
        match kill state with
        | Except.error e => Except.error e
        | Except.ok d => Except.ok (some (Worker.Done d))
      else
        Except.ok none
    | Worker.Done _ => Except.ok none

/-- The `try_join_all` of `State::<Busy>::stop` over all slots: one result per
slot, in slot order, with fail-fast error propagation. The source issues the
per-slot futures concurrently and joins them; since each slot is independent,
the joined result list is the in-order traversal modelled here. -/
def stopWorkers (kill : WorkerRunningState → Except Error WorkerDoneState)
    (task_id : TaskId) : List (Option Worker) → Except Error (List (Option Worker))
  | [] => Except.ok []
  | slot :: rest =>
    match stopSlot kill task_id slot with
    | Except.error e => Except.error e
    | Except.ok new_worker =>
      match stopWorkers kill task_id rest with
      | Except.error e => Except.error e
      | Except.ok workers => Except.ok (new_worker :: workers)

/-- `State::<Busy>::stop`: replace the whole slot vector by the joined
per-slot cancellation results; the first cancellation failure aborts the call
and no updated state is returned. -/
def State.stop (self : State Busy) (task_id : TaskId)
    (kill : WorkerRunningState → Except Error WorkerDoneState) :
    Except Error (State Busy) :=
  match stopWorkers kill task_id self.ctx.workers with
  | Except.error e => Except.error e
  | Except.ok workers => Except.ok { ctx := { workers } }

/-- Accessor `State::<Done>::cause` (the source clones; values are pure here). -/
def State.cause (self : State Done) : DoneCause :=
  self.ctx.cause

/-- `Scheduler::execute_command`: interpret one coordinator command against
the current lifecycle variant. The `kill` collaborator is threaded through for
the `StopTask` delegation to `State::<Busy>::stop`. -/
def Scheduler.execute_command (self : Scheduler) (cmd : NodeCommand) (managed : Bool)
    (kill : WorkerRunningState → Except Error WorkerDoneState) :
    Except Error Scheduler :=
  match cmd with
  | NodeCommand.AddSshKey ssh_key_info =>
    if managed then
      match add_ssh_key ssh_key_info with
      | Except.error e => Except.error e
      | Except.ok () => Except.ok self
    else
      Except.ok self
  | NodeCommand.StopTask stop_task =>
    match self with
    | Scheduler.Busy state =>
      match state.stop stop_task.task_id kill with
      | Except.error e => Except.error e
      | Except.ok state => Except.ok (Scheduler.Busy state)
    | _ => Except.ok self
  | NodeCommand.Stop =>
    Except.ok (Scheduler.Done { ctx := { cause := DoneCause.Stopped } })
  | NodeCommand.StopIfFree =>
    match self with
    | Scheduler.Free _ =>
      Except.ok (Scheduler.Done { ctx := { cause := DoneCause.Stopped } })
    | _ => Except.ok self

/-- Follows the spec's words (§4.2): the busy-stage update "iterates the worker
slots sequentially, in original order; for each slot, takes ownership of its
Worker, asks it to advance ... and places the resulting Worker back into the
same slot" — a plain sequential traversal of the workers threading the
event/runner state, against which the source's slot loop is compared. -/
def specSeqAdvance {σ : Type} (wupd : Worker → σ → Except Error (Worker × σ)) :
    List Worker → σ → Except Error (List Worker × σ)
  | [], s => Except.ok ([], s)
  | w :: ws, s =>
    match wupd w s with
    | Except.error e => Except.error e
    | Except.ok (w2, s2) =>
      match specSeqAdvance wupd ws s2 with
      | Except.error e => Except.error e
      | Except.ok (ws2, s3) => Except.ok (w2 :: ws2, s3)

/-- Concrete work unit for task 1, used by the concrete test states. -/
def wu1 : WorkUnit := { task_id := 1, job_id := 10, config := "cfg1" }

/-- Concrete work unit for task 2, used by the concrete test states. -/
def wu2 : WorkUnit := { task_id := 2, job_id := 20, config := "cfg2" }

/-- Running-worker state owning task 1. -/
def rs1 : WorkerRunningState :=
  { work_dir := "wd1", setup_dir := "sd", extra_setup_dir := "esd", work := wu1 }

/-- Running-worker state owning task 2. -/
def rs2 : WorkerRunningState :=
  { work_dir := "wd2", setup_dir := "sd", extra_setup_dir := "esd", work := wu2 }

/-- Concrete busy state with running workers for tasks 1 and 2, in that order. -/
def busyTwo : State Busy :=
  { ctx := { workers := [some (Worker.Running rs1), some (Worker.Running rs2)] } }

/-- The concrete busy state produced by `busyTwo.stop 1 killOk`: the matching
slot holds the done worker, the non-matching slot has been emptied. -/
def stoppedTwo : State Busy :=
  { ctx := { workers := [some (Worker.Done { work := wu1 }), none] } }

/-- A two-phase cancellation collaborator that always succeeds. -/
def killOk : WorkerRunningState → Except Error WorkerDoneState :=
  fun state => Except.ok { work := state.work }

/-- A per-worker update step that leaves the worker and the event/runner state
unchanged and never fails. -/
def wupdId : Worker → Unit → Except Error (Worker × Unit) :=
  fun worker s => Except.ok (worker, s)

/-- A per-worker update step that drives every worker to its done state. -/
def wupdFinish : Worker → Unit → Except Error (Worker × Unit) :=
  fun worker s =>
    match worker with
    | Worker.Running state => Except.ok (Worker.Done { work := state.work }, s)
    | Worker.Done d => Except.ok (Worker.Done d, s)

/-- Concrete work set with two work units and the reboot flag cleared. -/
def wsFalse : WorkSet :=
  { reboot := false, setup_url := "setup-url", extra_setup_url := none,
    work_units := [wu1, wu2] }

/-- Concrete work set with two work units and the reboot flag set. -/
def wsTrue : WorkSet :=
  { reboot := true, setup_url := "setup-url", extra_setup_url := none,
    work_units := [wu1, wu2] }

/-- Setting-up state holding `wsFalse`. -/
def settingUpFalse : State SettingUp := { ctx := { work_set := wsFalse } }

/-- Setting-up state holding `wsTrue`. -/
def settingUpTrue : State SettingUp := { ctx := { work_set := wsTrue } }

/-- Captured output of a setup script that exited unsuccessfully. -/
def failOutput : Output :=
  { exit_status := { success := false }, stdout := "out", stderr := "err" }

/-- Setup runner reporting a completed script with a failing exit status. -/
def runnerScriptFail : WorkSet → Except Error (Option Output) :=
  fun _ => Except.ok (some failOutput)

/-- Setup runner reporting an error obtaining or running the script. -/
def runnerErr : WorkSet → Except Error (Option Output) :=
  fun _ => Except.error "could not fetch setup script"

/-- Setup runner reporting that no setup script was required. -/
def runnerNoScript : WorkSet → Except Error (Option Output) :=
  fun _ => Except.ok none

/-- Ready state holding `wsFalse`. -/
def readyTwo : State Ready := { ctx := { work_set := wsFalse } }

/-- Setup-directory computation that always succeeds. -/
def sdfOk : WorkSet → Except Error Path := fun _ => Except.ok "sd"

/-- Extra-setup-directory computation that always succeeds. -/
def esdfOk : WorkSet → Except Error Path := fun _ => Except.ok "esd"

/-- Working-directory computation that always succeeds, deriving the directory
from the work unit's config. -/
def wdfOk : WorkUnit → Uuid → Except Error Path :=
  fun work _ => Except.ok work.config

/-- The busy state produced by `readyTwo.run 7 sdfOk esdfOk wdfOk`. -/
def runBusy : State Busy :=
  { ctx := { workers := [some (Worker.new "cfg1" "sd" "esd" wu1),
                         some (Worker.new "cfg2" "sd" "esd" wu2)] } }

/-- Concrete free scheduler. -/
def freeSched : Scheduler := Scheduler.Free { ctx := {} }

/-- Concrete busy scheduler wrapping `busyTwo`. -/
def busySched : Scheduler := Scheduler.Busy busyTwo

/-- A successful `runWorkers` pairs every work unit, in order, with a slot
holding a freshly constructed worker for that unit and its computed working
directory. -/
theorem runWorkers_ok_forall₂ {mid : Uuid} {sd esd : Path}
    {wdf : WorkUnit → Uuid → Except Error Path} :
    ∀ {units : List WorkUnit} {ws : List (Option Worker)},
    runWorkers mid sd esd wdf units = Except.ok ws →
    List.Forall₂ (fun u slot => ∃ wd, wdf u mid = Except.ok wd ∧
      slot = some (Worker.new wd sd esd u)) units ws := by
  intro units
  induction units with
  | nil =>
    intro ws h
    simp only [runWorkers, Except.ok.injEq] at h
    subst h
    exact List.Forall₂.nil
  | cons work rest ih =>
    intro ws h
    simp only [runWorkers] at h
    cases h1 : wdf work mid with
    | error e => rw [h1] at h; simp at h
    | ok wd =>
      rw [h1] at h
      cases h2 : runWorkers mid sd esd wdf rest with
      | error e => rw [h2] at h; simp at h
      | ok workers =>
        rw [h2] at h
        simp only [Except.ok.injEq] at h
        subst h
        exact List.Forall₂.cons ⟨wd, h1, rfl⟩ (ih h2)

/-- If every working-directory computation before `u` succeeds and the one for
`u` fails with `e`, the worker-construction loop fails with exactly `e`. -/
theorem runWorkers_error_of_first_failure {mid : Uuid} {sd esd : Path}
    {wdf : WorkUnit → Uuid → Except Error Path} :
    ∀ (pre : List WorkUnit) (u : WorkUnit) (post : List WorkUnit) (e : Error),
    (∀ v ∈ pre, ∃ p, wdf v mid = Except.ok p) →
    wdf u mid = Except.error e →
    runWorkers mid sd esd wdf (pre ++ u :: post) = Except.error e := by
  intro pre
  induction pre with
  | nil =>
    intro u post e _ hu
    simp [runWorkers, hu]
  | cons v vs ih =>
    intro u post e hpre hu
    obtain ⟨p, hp⟩ := hpre v (by simp)
    have hrec := ih u post e (fun w hw => hpre w (by simp [hw])) hu
    simp [runWorkers, hp, hrec]

/-- On a fully occupied slot list, the source's slot loop agrees with the
spec-level sequential advance, slot by slot. -/
theorem updateWorkers_map_some {σ : Type} {wupd : Worker → σ → Except Error (Worker × σ)} :
    ∀ {ws : List Worker} {s : σ} {ws' : List Worker} {s' : σ},
    specSeqAdvance wupd ws s = Except.ok (ws', s') →
    updateWorkers wupd (ws.map some) s = some (Except.ok (ws'.map some, s')) := by
  intro ws
  induction ws with
  | nil =>
    intro s ws' s' h
    simp only [specSeqAdvance, Except.ok.injEq, Prod.mk.injEq] at h
    obtain ⟨h1, h2⟩ := h
    subst h1; subst h2
    simp [updateWorkers]
  | cons w rest ih =>
    intro s ws' s' h
    simp only [specSeqAdvance] at h
    cases h1 : wupd w s with
    | error e => simp [h1] at h
    | ok p =>
      obtain ⟨w2, s2⟩ := p
      simp only [h1] at h
      cases h2 : specSeqAdvance wupd rest s2 with
      | error e => simp [h2] at h
      | ok q =>
        obtain ⟨ws2, s3⟩ := q
        simp only [h2, Except.ok.injEq, Prod.mk.injEq] at h
        obtain ⟨h3, h4⟩ := h
        subst h3; subst h4
        simp [updateWorkers, h1, ih h2]

/-- On a fully occupied slot list, `all_workers_done` never panics and computes
the conjunction of the workers' `is_done` flags. -/
theorem allWorkersDone_map_some :
    ∀ ws : List Worker, allWorkersDone (ws.map some) = some (ws.all Worker.is_done) := by
  intro ws
  induction ws with
  | nil => simp [allWorkersDone]
  | cons w rest ih =>
    cases hw : w.is_done <;> simp [allWorkersDone, hw, ih]

/-- The slot loop of `update` preserves the number of slots. -/
theorem updateWorkers_ok_length {σ : Type} {wupd : Worker → σ → Except Error (Worker × σ)} :
    ∀ {slots : List (Option Worker)} {s : σ} {slots' : List (Option Worker)} {s' : σ},
    updateWorkers wupd slots s = some (Except.ok (slots', s')) →
    slots'.length = slots.length := by
  intro slots
  induction slots with
  | nil =>
    intro s slots' s' h
    simp only [updateWorkers, Option.some.injEq, Except.ok.injEq, Prod.mk.injEq] at h
    obtain ⟨h1, _⟩ := h
    subst h1
    rfl
  | cons slot rest ih =>
    intro s slots' s' h
    cases slot with
    | none => simp [updateWorkers] at h
    | some w =>
      simp only [updateWorkers] at h
      cases h1 : wupd w s with
      | error e => simp [h1] at h
      | ok p =>
        obtain ⟨w2, s2⟩ := p
        simp only [h1] at h
        cases h2 : updateWorkers wupd rest s2 with
        | none => simp [h2] at h
        | some r =>
          cases r with
          | error e => simp [h2] at h
          | ok q =>
            obtain ⟨ws, s3⟩ := q
            simp only [h2, Option.some.injEq, Except.ok.injEq, Prod.mk.injEq] at h
            obtain ⟨h3, _⟩ := h
            subst h3
            simp [ih h2]

/-- Every slot put back by the slot loop of `update` is occupied. -/
theorem updateWorkers_ok_isSome {σ : Type} {wupd : Worker → σ → Except Error (Worker × σ)} :
    ∀ {slots : List (Option Worker)} {s : σ} {slots' : List (Option Worker)} {s' : σ},
    updateWorkers wupd slots s = some (Except.ok (slots', s')) →
    ∀ slot ∈ slots', slot.isSome := by
  intro slots
  induction slots with
  | nil =>
    intro s slots' s' h
    simp only [updateWorkers, Option.some.injEq, Except.ok.injEq, Prod.mk.injEq] at h
    obtain ⟨h1, _⟩ := h
    subst h1
    intro slot hslot
    simp at hslot
  | cons slot rest ih =>
    intro s slots' s' h
    cases slot with
    | none => simp [updateWorkers] at h
    | some w =>
      simp only [updateWorkers] at h
      cases h1 : wupd w s with
      | error e => simp [h1] at h
      | ok p =>
        obtain ⟨w2, s2⟩ := p
        simp only [h1] at h
        cases h2 : updateWorkers wupd rest s2 with
        | none => simp [h2] at h
        | some r =>
          cases r with
          | error e => simp [h2] at h
          | ok q =>
            obtain ⟨ws, s3⟩ := q
            simp only [h2, Option.some.injEq, Except.ok.injEq, Prod.mk.injEq] at h
            obtain ⟨h3, _⟩ := h
            subst h3
            intro slot hslot
            rcases List.mem_cons.mp hslot with h4 | h4
            · subst h4; rfl
            · exact ih h2 slot h4

/-- On a fully occupied slot list the slot loop of `update` never panics. -/
theorem updateWorkers_ne_none {σ : Type} {wupd : Worker → σ → Except Error (Worker × σ)} :
    ∀ {slots : List (Option Worker)} {s : σ},
    (∀ slot ∈ slots, slot.isSome) →
    updateWorkers wupd slots s ≠ none := by
  intro slots
  induction slots with
  | nil => intro s _; simp [updateWorkers]
  | cons slot rest ih =>
    intro s hall
    cases slot with
    | none =>
      have := hall none (by simp)
      simp at this
    | some w =>
      simp only [updateWorkers]
      cases h1 : wupd w s with
      | error e => simp
      | ok p =>
        obtain ⟨w2, s2⟩ := p
        have hrest : ∀ slot ∈ rest, slot.isSome :=
          fun slot hslot => hall slot (List.mem_cons_of_mem _ hslot)
        cases h2 : updateWorkers wupd rest s2 with
        | none => exact absurd h2 (ih hrest)
        | some r => cases r <;> simp [h2]

/-- On a fully occupied slot list `all_workers_done` never panics. -/
theorem allWorkersDone_ne_none :
    ∀ {slots : List (Option Worker)},
    (∀ slot ∈ slots, slot.isSome) →
    allWorkersDone slots ≠ none := by
  intro slots
  induction slots with
  | nil => intro _; simp [allWorkersDone]
  | cons slot rest ih =>
    intro hall
    cases slot with
    | none =>
      have := hall none (by simp)
      simp at this
    | some w =>
      have hrest : ∀ slot ∈ rest, slot.isSome :=
        fun slot hslot => hall slot (List.mem_cons_of_mem _ hslot)
      cases hw : w.is_done <;> simp [allWorkersDone, hw]
      exact ih hrest

/-- The joined cancellation results of `stop` have one slot per input slot. -/
theorem stopWorkers_ok_length {kill : WorkerRunningState → Except Error WorkerDoneState}
    {task_id : TaskId} :
    ∀ {slots slots' : List (Option Worker)},
    stopWorkers kill task_id slots = Except.ok slots' →
    slots'.length = slots.length := by
  intro slots
  induction slots with
  | nil =>
    intro slots' h
    simp only [stopWorkers, Except.ok.injEq] at h
    subst h
    rfl
  | cons slot rest ih =>
    intro slots' h
    simp only [stopWorkers] at h
    cases h1 : stopSlot kill task_id slot with
    | error e => rw [h1] at h; simp at h
    | ok nw =>
      rw [h1] at h
      cases h2 : stopWorkers kill task_id rest with
      | error e => rw [h2] at h; simp at h
      | ok ws =>
        rw [h2] at h
        simp only [Except.ok.injEq] at h
        subst h
        simp [ih h2]

/-- Every slot produced by a successful `runWorkers` is occupied. -/
theorem runWorkers_ok_isSome {mid : Uuid} {sd esd : Path}
    {wdf : WorkUnit → Uuid → Except Error Path} :
    ∀ {units : List WorkUnit} {ws : List (Option Worker)},
    runWorkers mid sd esd wdf units = Except.ok ws →
    ∀ slot ∈ ws, slot.isSome := by
  intro units
  induction units with
  | nil =>
    intro ws h
    simp only [runWorkers, Except.ok.injEq] at h
    subst h
    intro slot hslot
    simp at hslot
  | cons work rest ih =>
    intro ws h
    simp only [runWorkers] at h
    cases h1 : wdf work mid with
    | error e => simp [h1] at h
    | ok wd =>
      simp only [h1] at h
      cases h2 : runWorkers mid sd esd wdf rest with
      | error e => simp [h2] at h
      | ok workers =>
        simp only [h2, Except.ok.injEq] at h
        subst h
        intro slot hslot
        rcases List.mem_cons.mp hslot with h3 | h3
        · subst h3; rfl
        · exact ih h2 slot h3

/-- C1: the claim states that `State::<Busy>::stop(task_id)` replaces only the
matching running slots and leaves every non-matching or already-terminal slot
untouched, so that after stopping task 1 in a busy state with running workers
for tasks [1,2] the task-2 slot still holds its running worker. Evaluating the
embedded source at exactly that input refutes this: the task-1 slot holds the
resulting done worker, but the task-2 slot has been emptied — the `try_join_all`
closure leaves `new_worker` as `None` for every slot that is not a matching
running worker, so the task-2 running worker is dropped rather than kept. -/
theorem stop_drops_nonmatching_running_worker :
    busyTwo.ctx.workers[1]? = some (some (Worker.Running rs2)) ∧
    busyTwo.stop 1 killOk = Except.ok stoppedTwo ∧
    stoppedTwo.ctx.workers[0]? = some (some (Worker.Done { work := wu1 })) ∧
    stoppedTwo.ctx.workers[1]? = some none := by
  exact ⟨rfl, rfl, rfl, rfl⟩

/-- C2: for every busy state whose slots are all occupied, `update` advances
each worker exactly once, sequentially in original slot order — modelled by the
spec-level sequential traversal `specSeqAdvance` — placing each resulting
worker back into the same slot; if afterwards every worker reports done, the
result is `Done(WorkersDone)`, otherwise it is the updated busy state. -/
theorem update_advances_sequentially :
    ∀ (σ : Type) (wupd : Worker → σ → Except Error (Worker × σ))
      (self : State Busy) (ws : List Worker) (s : σ) (ws' : List Worker) (s' : σ),
    self.ctx.workers = ws.map some →
    specSeqAdvance wupd ws s = Except.ok (ws', s') →
    self.update wupd s = some (Except.ok
      ((if ws'.all Worker.is_done then
          Updated.Done { ctx := { cause := DoneCause.WorkersDone } }
        else
          Updated.Busy { ctx := { workers := ws'.map some } }), s')) := by
  intro σ wupd self ws s ws' s' hws hadv
  simp only [State.update, hws, updateWorkers_map_some hadv, allWorkersDone_map_some]
  cases hall : ws'.all Worker.is_done <;> simp [hall]

/-- C2 witness: `update_advances_sequentially` applied to the concrete busy
state with two running workers and a per-worker step that changes nothing. -/
theorem update_advances_sequentially_witness :
    busyTwo.update wupdId () = some (Except.ok (Updated.Busy { ctx := { workers := [some (Worker.Running rs1), some (Worker.Running rs2)] } }, ())) := by
  have h := update_advances_sequentially Unit wupdId busyTwo
    [Worker.Running rs1, Worker.Running rs2] () [Worker.Running rs1, Worker.Running rs2] ()
    rfl rfl
  simpa [Worker.is_done] using h

/-- C3: a busy state constructed by `run` has exactly one slot per work unit,
in the work units' original order (each slot holding a running worker owned by
the corresponding unit), and the slot count is preserved by every `update`
call that returns a busy state and by every `stop` call that returns a busy
state. -/
theorem busy_slot_count_preserved :
    (∀ (self : State Ready) (machine_id : Uuid)
      (sdf esdf : WorkSet → Except Error Path) (wdf : WorkUnit → Uuid → Except Error Path)
      (b : State Busy),
      self.run machine_id sdf esdf wdf = Except.ok b →
      b.ctx.workers.length = self.ctx.work_set.work_units.length ∧
      List.Forall₂ (fun u slot => ∃ st : WorkerRunningState, slot = some (Worker.Running st) ∧ st.work = u) self.ctx.work_set.work_units b.ctx.workers) ∧
    (∀ (σ : Type) (wupd : Worker → σ → Except Error (Worker × σ))
      (self : State Busy) (s : σ) (b' : State Busy) (s' : σ),
      self.update wupd s = some (Except.ok (Updated.Busy b', s')) →
      b'.ctx.workers.length = self.ctx.workers.length) ∧
    (∀ (self : State Busy) (task_id : TaskId)
      (kill : WorkerRunningState → Except Error WorkerDoneState) (b' : State Busy),
      self.stop task_id kill = Except.ok b' →
      b'.ctx.workers.length = self.ctx.workers.length) := by
  refine ⟨?_, ?_, ?_⟩
  · intro self mid sdf esdf wdf b h
    simp only [State.run] at h
    cases h1 : sdf self.ctx.work_set with
    | error e => simp [h1] at h
    | ok sd =>
      simp only [h1] at h
      cases h2 : esdf self.ctx.work_set with
      | error e => simp [h2] at h
      | ok esd =>
        simp only [h2] at h
        cases h3 : runWorkers mid sd esd wdf self.ctx.work_set.work_units with
        | error e => simp [h3] at h
        | ok workers =>
          simp only [h3, Except.ok.injEq] at h
          subst h
          have hf := runWorkers_ok_forall₂ h3
          refine ⟨(List.Forall₂.length_eq hf).symm, ?_⟩
          refine hf.imp (fun u slot hp => ?_)
          obtain ⟨wd, _, hslot⟩ := hp
          exact ⟨{ work_dir := wd, setup_dir := sd, extra_setup_dir := esd, work := u }, hslot, rfl⟩
  · intro σ wupd self s b' s' h
    simp only [State.update] at h
    cases h1 : updateWorkers wupd self.ctx.workers s with
    | none => simp [h1] at h
    | some r =>
      cases r with
      | error e => simp [h1] at h
      | ok q =>
        obtain ⟨workers, s2⟩ := q
        simp only [h1] at h
        cases h2 : allWorkersDone workers with
        | none => simp [h2] at h
        | some bdone =>
          cases bdone with
          | true => simp [h2] at h
          | false =>
            simp only [h2, Option.some.injEq, Except.ok.injEq, Prod.mk.injEq,
              Updated.Busy.injEq] at h
            obtain ⟨h3, _⟩ := h
            subst h3
            exact updateWorkers_ok_length h1
  · intro self task_id kill b' h
    simp only [State.stop] at h
    cases h1 : stopWorkers kill task_id self.ctx.workers with
    | error e => simp [h1] at h
    | ok workers =>
      simp only [h1, Except.ok.injEq] at h
      subst h
      exact stopWorkers_ok_length h1

/-- C3 witness: the slot-count facts at the concrete ready and busy states. -/
theorem busy_slot_count_preserved_witness :
    runBusy.ctx.workers.length = readyTwo.ctx.work_set.work_units.length ∧
    busyTwo.ctx.workers.length = busyTwo.ctx.workers.length ∧
    stoppedTwo.ctx.workers.length = busyTwo.ctx.workers.length := by
  exact ⟨(busy_slot_count_preserved.1 readyTwo 7 sdfOk esdfOk wdfOk runBusy rfl).1,
    busy_slot_count_preserved.2.1 Unit wupdId busyTwo () busyTwo () rfl,
    busy_slot_count_preserved.2.2 busyTwo 1 killOk stoppedTwo rfl⟩

/-- C4: every busy state produced by `run` has all slots occupied; `update`
never panics on a fully occupied busy state and any busy state it returns is
again fully occupied — so the unchecked unwraps in `update` and
`all_workers_done` cannot panic on busy states reached without `stop`. A busy
state returned by `stop`, however, need not keep every slot occupied: at the
concrete two-worker state, stopping task 1 succeeds but empties the task-2
slot, and the subsequent `update` panics (returns the panic value `none`). -/
theorem busy_occupancy_invariant :
    (∀ (self : State Ready) (machine_id : Uuid)
      (sdf esdf : WorkSet → Except Error Path) (wdf : WorkUnit → Uuid → Except Error Path)
      (b : State Busy),
      self.run machine_id sdf esdf wdf = Except.ok b →
      ∀ slot ∈ b.ctx.workers, slot.isSome) ∧
    (∀ (σ : Type) (wupd : Worker → σ → Except Error (Worker × σ))
      (self : State Busy) (s : σ),
      (∀ slot ∈ self.ctx.workers, slot.isSome) →
      self.update wupd s ≠ none) ∧
    (∀ (σ : Type) (wupd : Worker → σ → Except Error (Worker × σ))
      (self : State Busy) (s : σ) (b' : State Busy) (s' : σ),
      self.update wupd s = some (Except.ok (Updated.Busy b', s')) →
      ∀ slot ∈ b'.ctx.workers, slot.isSome) ∧
    (busyTwo.stop 1 killOk = Except.ok stoppedTwo ∧
      ¬ (∀ slot ∈ stoppedTwo.ctx.workers, slot.isSome) ∧
      stoppedTwo.update wupdId () = none) := by
  refine ⟨?_, ?_, ?_, rfl, ?_, rfl⟩
  · intro self mid sdf esdf wdf b h
    simp only [State.run] at h
    cases h1 : sdf self.ctx.work_set with
    | error e => simp [h1] at h
    | ok sd =>
      simp only [h1] at h
      cases h2 : esdf self.ctx.work_set with
      | error e => simp [h2] at h
      | ok esd =>
        simp only [h2] at h
        cases h3 : runWorkers mid sd esd wdf self.ctx.work_set.work_units with
        | error e => simp [h3] at h
        | ok workers =>
          simp only [h3, Except.ok.injEq] at h
          subst h
          exact runWorkers_ok_isSome h3
  · intro σ wupd self s hall
    simp only [State.update]
    cases h1 : updateWorkers wupd self.ctx.workers s with
    | none => exact absurd h1 (updateWorkers_ne_none hall)
    | some r =>
      cases r with
      | error e => simp
      | ok q =>
        obtain ⟨workers, s2⟩ := q
        cases h2 : allWorkersDone workers with
        | none => exact absurd h2 (allWorkersDone_ne_none (updateWorkers_ok_isSome h1))
        | some bdone => cases bdone <;> simp [h2]
  · intro σ wupd self s b' s' h
    simp only [State.update] at h
    cases h1 : updateWorkers wupd self.ctx.workers s with
    | none => simp [h1] at h
    | some r =>
      cases r with
      | error e => simp [h1] at h
      | ok q =>
        obtain ⟨workers, s2⟩ := q
        simp only [h1] at h
        cases h2 : allWorkersDone workers with
        | none => simp [h2] at h
        | some bdone =>
          cases bdone with
          | true => simp [h2] at h
          | false =>
            simp only [h2, Option.some.injEq, Except.ok.injEq, Prod.mk.injEq,
              Updated.Busy.injEq] at h
            obtain ⟨h3, _⟩ := h
            subst h3
            exact updateWorkers_ok_isSome h1
  · intro hcontra
    have h := hcontra none (by simp [stoppedTwo])
    simp at h

/-- C4 witness: the occupancy facts applied at the concrete ready and busy
states. -/
theorem busy_occupancy_invariant_witness :
    (∀ slot ∈ runBusy.ctx.workers, slot.isSome) ∧
    busyTwo.update wupdId () ≠ none ∧
    (∀ slot ∈ busyTwo.ctx.workers, slot.isSome) := by
  exact ⟨busy_occupancy_invariant.1 readyTwo 7 sdfOk esdfOk wdfOk runBusy rfl,
    busy_occupancy_invariant.2.1 Unit wupdId busyTwo () (by decide),
    busy_occupancy_invariant.2.2.1 Unit wupdId busyTwo () busyTwo () rfl⟩

/-- C5: for every lifecycle variant, command and managed flag,
`execute_command` succeeds whenever the delegated `stop` does not fail (the
only fallible delegation, reachable only for `StopTask` while `Busy`); in
particular `AddSshKey` always succeeds and returns the scheduler unchanged,
managed or not. The external `add_ssh_key` side effect is modelled from the
spec as infallible. -/
theorem execute_command_total :
    (∀ (self : Scheduler) (cmd : NodeCommand) (managed : Bool)
      (kill : WorkerRunningState → Except Error WorkerDoneState),
      (∀ (st : State Busy) (t : StopTask), self = Scheduler.Busy st →
        cmd = NodeCommand.StopTask t → ∃ b, st.stop t.task_id kill = Except.ok b) →
      ∃ r, self.execute_command cmd managed kill = Except.ok r) ∧
    (∀ (self : Scheduler) (info : SshKeyInfo) (managed : Bool)
      (kill : WorkerRunningState → Except Error WorkerDoneState),
      self.execute_command (NodeCommand.AddSshKey info) managed kill = Except.ok self) := by
  constructor
  · intro self cmd managed kill hstop
    cases cmd with
    | AddSshKey info =>
      refine ⟨self, ?_⟩
      cases managed <;> rfl
    | StopTask t =>
      cases self with
      | Busy st =>
        obtain ⟨b, hb⟩ := hstop st t rfl rfl
        refine ⟨Scheduler.Busy b, ?_⟩
        simp [Scheduler.execute_command, hb]
      | Free s => exact ⟨_, rfl⟩
      | SettingUp s => exact ⟨_, rfl⟩
      | PendingReboot s => exact ⟨_, rfl⟩
      | Ready s => exact ⟨_, rfl⟩
      | Done s => exact ⟨_, rfl⟩
    | Stop => exact ⟨_, rfl⟩
    | StopIfFree => cases self <;> exact ⟨_, rfl⟩
  · intro self info managed kill
    cases managed <;> rfl

/-- C5 witness: `execute_command` succeeds at the concrete busy scheduler for
`StopTask` (the kill collaborator succeeding) and for `AddSshKey` unmanaged. -/
theorem execute_command_total_witness :
    (∃ r, busySched.execute_command (NodeCommand.StopTask { task_id := 1 }) true killOk = Except.ok r) ∧
    busySched.execute_command (NodeCommand.AddSshKey { public_key := "key" }) false killOk = Except.ok busySched := by
  refine ⟨execute_command_total.1 busySched (NodeCommand.StopTask { task_id := 1 }) true killOk ?_,
    execute_command_total.2 busySched { public_key := "key" } false killOk⟩
  intro st t h1 h2
  simp only [busySched, Scheduler.Busy.injEq] at h1
  simp only [NodeCommand.StopTask.injEq] at h2
  subst h1
  subst h2
  exact ⟨stoppedTwo, rfl⟩

/-- C6: when the setup runner reports a completed script with a failing exit
status, `finish` returns `Done(SetupError)` with the fixed non-empty message
and the captured output attached; when the runner reports an error, `finish`
returns `Done(SetupError)` with the message formatted from that error and no
output. -/
theorem finish_setup_error :
    (∀ (self : State SettingUp) (runner : WorkSet → Except Error (Option Output))
      (output : Output),
      runner self.ctx.work_set = Except.ok (some output) →
      output.exit_status.success = false →
      self.finish runner = Except.ok (SetupDone.Done { ctx := { cause := DoneCause.SetupError "error running target setup script" (some output) } }) ∧
      "error running target setup script" ≠ "") ∧
    (∀ (self : State SettingUp) (runner : WorkSet → Except Error (Option Output))
      (err : Error),
      runner self.ctx.work_set = Except.error err →
      self.finish runner = Except.ok (SetupDone.Done { ctx := { cause := DoneCause.SetupError (formatErr err) none } })) := by
  constructor
  · intro self runner output hro hfail
    refine ⟨?_, by decide⟩
    simp only [State.finish]
    rw [hro]
    simp [hfail]
  · intro self runner err hre
    simp only [State.finish]
    rw [hre]

/-- C6 witness: both setup-failure shapes at the concrete setting-up state. -/
theorem finish_setup_error_witness :
    settingUpFalse.finish runnerScriptFail = Except.ok (SetupDone.Done { ctx := { cause := DoneCause.SetupError "error running target setup script" (some failOutput) } }) ∧
    settingUpFalse.finish runnerErr = Except.ok (SetupDone.Done { ctx := { cause := DoneCause.SetupError (formatErr "could not fetch setup script") none } }) := by
  exact ⟨(finish_setup_error.1 settingUpFalse runnerScriptFail failOutput rfl rfl).1,
    finish_setup_error.2 settingUpFalse runnerErr "could not fetch setup script" rfl⟩

/-- C7: when the setup runner reports a successful script or that no script
was required, `finish` moves to `PendingReboot` holding the same work set if
the work set's reboot flag is set, and to `Ready` holding the same work set
otherwise. -/
theorem finish_proceeds_by_reboot_flag :
    ∀ (self : State SettingUp) (runner : WorkSet → Except Error (Option Output)),
    (runner self.ctx.work_set = Except.ok none ∨
      ∃ output, runner self.ctx.work_set = Except.ok (some output) ∧
        output.exit_status.success = true) →
    self.finish runner = Except.ok (if self.ctx.work_set.reboot then SetupDone.PendingReboot { ctx := { work_set := self.ctx.work_set } } else SetupDone.Ready { ctx := { work_set := self.ctx.work_set } }) := by
  intro self runner hok
  rcases hok with hnone | ⟨output, hro, hsucc⟩
  · simp only [State.finish]
    rw [hnone]
    simp [finishProceed]
  · simp only [State.finish]
    rw [hro]
    simp [hsucc, finishProceed]

/-- C7 witness: with the reboot flag set and no setup script required,
`finish` yields `PendingReboot` holding the same work set. -/
theorem finish_proceeds_by_reboot_flag_witness :
    settingUpTrue.finish runnerNoScript = Except.ok (SetupDone.PendingReboot { ctx := { work_set := wsTrue } }) := by
  exact finish_proceeds_by_reboot_flag settingUpTrue runnerNoScript (Or.inl rfl)

/-- C8: `run(machine_id)` constructs exactly one worker per work unit, in the
work units' original order, each given its computed working directory and the
shared setup and extra-setup directories; a failing setup-directory,
extra-setup-directory, or working-directory computation makes `run` propagate
exactly that error, producing no busy state at all. -/
theorem run_constructs_workers :
    (∀ (self : State Ready) (machine_id : Uuid)
      (sdf esdf : WorkSet → Except Error Path) (wdf : WorkUnit → Uuid → Except Error Path)
      (sd esd : Path) (b : State Busy),
      sdf self.ctx.work_set = Except.ok sd →
      esdf self.ctx.work_set = Except.ok esd →
      self.run machine_id sdf esdf wdf = Except.ok b →
      List.Forall₂ (fun u slot => ∃ wd, wdf u machine_id = Except.ok wd ∧ slot = some (Worker.new wd sd esd u)) self.ctx.work_set.work_units b.ctx.workers) ∧
    (∀ (self : State Ready) (machine_id : Uuid)
      (sdf esdf : WorkSet → Except Error Path) (wdf : WorkUnit → Uuid → Except Error Path)
      (e : Error),
      sdf self.ctx.work_set = Except.error e →
      self.run machine_id sdf esdf wdf = Except.error e) ∧
    (∀ (self : State Ready) (machine_id : Uuid)
      (sdf esdf : WorkSet → Except Error Path) (wdf : WorkUnit → Uuid → Except Error Path)
      (sd : Path) (e : Error),
      sdf self.ctx.work_set = Except.ok sd →
      esdf self.ctx.work_set = Except.error e →
      self.run machine_id sdf esdf wdf = Except.error e) ∧
    (∀ (self : State Ready) (machine_id : Uuid)
      (sdf esdf : WorkSet → Except Error Path) (wdf : WorkUnit → Uuid → Except Error Path)
      (sd esd : Path) (pre : List WorkUnit) (u : WorkUnit) (post : List WorkUnit) (e : Error),
      sdf self.ctx.work_set = Except.ok sd →
      esdf self.ctx.work_set = Except.ok esd →
      self.ctx.work_set.work_units = pre ++ u :: post →
      (∀ v ∈ pre, ∃ p, wdf v machine_id = Except.ok p) →
      wdf u machine_id = Except.error e →
      self.run machine_id sdf esdf wdf = Except.error e) := by
  refine ⟨?_, ?_, ?_, ?_⟩
  · intro self mid sdf esdf wdf sd esd b h1 h2 h3
    simp only [State.run, h1, h2] at h3
    cases h4 : runWorkers mid sd esd wdf self.ctx.work_set.work_units with
    | error e => simp [h4] at h3
    | ok workers =>
      simp only [h4, Except.ok.injEq] at h3
      subst h3
      exact runWorkers_ok_forall₂ h4
  · intro self mid sdf esdf wdf e h1
    simp [State.run, h1]
  · intro self mid sdf esdf wdf sd e h1 h2
    simp [State.run, h1, h2]
  · intro self mid sdf esdf wdf sd esd pre u post e h1 h2 hunits hpre hu
    have hrw := @runWorkers_error_of_first_failure mid sd esd wdf pre u post e hpre hu
    simp [State.run, h1, h2, hunits, hrw]

/-- C8 witness: the per-unit worker construction at the concrete ready state
with two work units and all directory computations succeeding. -/
theorem run_constructs_workers_witness :
    List.Forall₂ (fun u slot => ∃ wd, wdfOk u 7 = Except.ok wd ∧ slot = some (Worker.new wd "sd" "esd" u)) readyTwo.ctx.work_set.work_units runBusy.ctx.workers := by
  exact run_constructs_workers.1 readyTwo 7 sdfOk esdfOk wdfOk "sd" "esd" runBusy rfl rfl rfl

/-- C9: constructing a scheduler with no reboot context yields `Free`;
constructing it with a reboot context yields `Ready` holding exactly that
context's work set. -/
theorem scheduler_new_variant :
    Scheduler.new none = Scheduler.Free { ctx := {} } ∧
    ∀ ctx : RebootContext, Scheduler.new (some ctx) = Scheduler.Ready { ctx := { work_set := ctx.work_set } } := by
  exact ⟨rfl, fun ctx => rfl⟩

/-- C10: the `Stop` command maps every lifecycle variant, `Done` included, to
`Done(Stopped)`, and `StopIfFree` maps `Free` to `Done(Stopped)` while
returning the scheduler unchanged in every other variant. -/
theorem stop_and_stop_if_free_commands :
    ∀ (self : Scheduler) (managed : Bool)
      (kill : WorkerRunningState → Except Error WorkerDoneState),
    self.execute_command NodeCommand.Stop managed kill = Except.ok (Scheduler.Done { ctx := { cause := DoneCause.Stopped } }) ∧
    ((∃ f, self = Scheduler.Free f) → self.execute_command NodeCommand.StopIfFree managed kill = Except.ok (Scheduler.Done { ctx := { cause := DoneCause.Stopped } })) ∧
    ((∀ f, self ≠ Scheduler.Free f) → self.execute_command NodeCommand.StopIfFree managed kill = Except.ok self) := by
  intro self managed kill
  refine ⟨rfl, ?_, ?_⟩
  · rintro ⟨f, rfl⟩
    rfl
  · intro h
    cases self with
    | Free f => exact absurd rfl (h f)
    | SettingUp s => rfl
    | PendingReboot s => rfl
    | Ready s => rfl
    | Busy s => rfl
    | Done s => rfl

/-- C10 witness: `Stop` and `StopIfFree` at the concrete free and busy
schedulers. -/
theorem stop_and_stop_if_free_commands_witness :
    freeSched.execute_command NodeCommand.Stop true killOk = Except.ok (Scheduler.Done { ctx := { cause := DoneCause.Stopped } }) ∧
    freeSched.execute_command NodeCommand.StopIfFree true killOk = Except.ok (Scheduler.Done { ctx := { cause := DoneCause.Stopped } }) ∧
    busySched.execute_command NodeCommand.StopIfFree true killOk = Except.ok busySched := by
  refine ⟨(stop_and_stop_if_free_commands freeSched true killOk).1,
    (stop_and_stop_if_free_commands freeSched true killOk).2.1 ⟨{ ctx := {} }, rfl⟩,
    (stop_and_stop_if_free_commands busySched true killOk).2.2 ?_⟩
  intro f h
  simp [busySched] at h

end OneFuzz
